import Mathlib

/-!
Verification of the `tst` / `testy` unit-test framework core.

Shallow embedding of

* `src/tst/suite.hpp`     (flags, status, `test_info`, `suite`, parametrized `add`),
* `src/tst/reporter.hxx`  (`reporter`, the four event operations, `is_failed`),
* `src/testy/suite.hpp`   (the older parametrized `add`),
* `src/testy/main.cpp`    (`testy::main`).

Conventions.

* `size_t` values are natural numbers; arithmetic on them is reduced modulo
  `size_t_mod = 2 ^ 64` where the source computes on them.
* A test procedure (`std::function<void()>`) acts on a world `W` and either
  returns normally or raises; it is a function `W → W × Option raised`.
* A `std::function` value may be empty; it is an `Option`.
* `ASSERT(c)` (a debug-only check of `utki`) is embedded as a separate Boolean
  definition of its condition `c`; the value of the function is the one computed
  when the check is compiled out, which is also the value of the checked build
  wherever the condition holds.
* `std::unordered_map` / `std::map` are association lists in insertion order.
-/

namespace tst

/-! ## Machine integers -/

/-- Number of values of `size_t`. -/
def size_t_mod : Nat := 2 ^ 64

/-- Addition of `size_t`. -/
def size_t_add (a b : Nat) : Nat := (a + b) % size_t_mod

/-- Subtraction of `size_t` (wraps around when `a < b`). -/
def size_t_sub (a b : Nat) : Nat := (a + size_t_mod - b % size_t_mod) % size_t_mod

/-! ## Flags (`enum class flag`, `utki::flags<flag>`) -/

/-- The enumerators of `enum class flag` (without the `enum_size` counter). -/
inductive flag where
  | disabled
  | no_parallel
  deriving DecidableEq, Repr

/-- A value of `utki::flags<flag>`: one bit per enumerator. -/
structure flags where
  disabled : Bool
  no_parallel : Bool
  deriving DecidableEq, Repr

/-- The conversion `utki::flags<flag>(bool)`: every bit gets the given value
(the source passes `false`). -/
def flags.of_bool (b : Bool) : flags := { disabled := b, no_parallel := b }

/-- Reading one bit, `flags.get(f)`. -/
def flags.get (fl : flags) : flag → Bool
  | flag.disabled => fl.disabled
  | flag.no_parallel => fl.no_parallel

/-- Setting one bit, `flags.set(f)`. -/
def flags.set (fl : flags) : flag → flags
  | flag.disabled => { fl with disabled := true }
  | flag.no_parallel => { fl with no_parallel := true }

/-! ## Procedures -/

/-- What a test procedure can raise: an assertion-kind failure or anything else. -/
inductive raised where
  | check_failed (message : String)
  | other (message : String)
  deriving DecidableEq, Repr

/-- A test procedure `std::function<void()>`: it changes the world and either
returns normally (`none`) or raises. -/
abbrev procedure (W : Type) : Type := W → W × Option raised

/-- A parametrized test procedure `std::function<void(const parameter&)>`,
possibly empty. -/
abbrev param_procedure (P W : Type) : Type := Option (P → procedure W)

/-- The condition of `ASSERT(proc != nullptr)` inside the generated closure. -/
def param_closure_assert {P W : Type} (proc : param_procedure P W) : Bool :=
  proc.isSome

/-- The closure `[proc = proc, param = std::move(params[i])](){ ASSERT(proc != nullptr)
proc(param); }`. Calling an empty `std::function` raises `std::bad_function_call`. -/
def param_closure {P W : Type} (proc : param_procedure P W) (param : P) : procedure W :=
  fun w =>
    match proc with
    | some f => f param w
    | none => (w, some (raised.other "bad_function_call"))

/-! ## `suite` -/

/-- The nested `enum class status`. -/
inductive status where
  | not_run
  | passed
  | failed
  | errored
  | disabled
  deriving DecidableEq, Repr

/-- The nested `struct test_info`. `result` and `message` carry the default member
initializers of the source; `time_ms` has none. -/
structure test_info (W : Type) where
  proc : procedure W
  flags : flags
  result : status := status.not_run
  time_ms : Nat
  message : String := ""

/-- The class `suite`: the test map and the four `mutable size_t` counters with
their initializers. -/
structure suite (W : Type) where
  tests : List (String × test_info W)
  num_disabled : Nat := 0
  num_failed : Nat := 0
  num_passed : Nat := 0
  num_errors : Nat := 0

/-- The constructor `suite(){}`: an empty map, counters from their initializers. -/
def suite.new {W : Type} : suite W := { tests := [] }

/-- A suite as `suite(){}` constructs it once its map has been filled with `ts`: the counters
keep the value of their initializers. -/
def suite.populated {W : Type} (ts : List (String × test_info W)) : suite W :=
  { (suite.new : suite W) with tests := ts }

/-- The member `size()`: `tests.size()`. -/
def suite.size {W : Type} (s : suite W) : Nat := s.tests.length

/-- The local `num_non_skipped` of `num_skipped()`: the left-to-right `size_t` sum
`num_disabled + num_errors + num_failed + num_passed`. -/
def suite.num_non_skipped {W : Type} (s : suite W) : Nat :=
  size_t_add (size_t_add (size_t_add s.num_disabled s.num_errors) s.num_failed) s.num_passed

/-- The condition of `ASSERT(this->tests.size() >= num_non_skipped)`. -/
def suite.num_skipped_assert {W : Type} (s : suite W) : Bool :=
  decide (s.tests.length ≥ s.num_non_skipped)

/-- The member `num_skipped()`: `tests.size() - num_non_skipped` in `size_t`. -/
def suite.num_skipped {W : Type} (s : suite W) : Nat :=
  size_t_sub s.tests.length s.num_non_skipped

/-- Every `size_t` member and the map size fit `size_t`. -/
def suite.representable {W : Type} (s : suite W) : Prop :=
  s.tests.length < size_t_mod ∧ s.num_disabled < size_t_mod ∧ s.num_failed < size_t_mod ∧
    s.num_passed < size_t_mod ∧ s.num_errors < size_t_mod

/-! ## `reporter` -/

/-- The pair of `full_id.hxx`: suite name and test id. -/
structure full_id where
  suite : String
  test : String
  deriving DecidableEq, Repr

/-- The data members of `reporter` (the mutex apart): the reference to the
tester's suites and the five counters with their initializers. -/
structure reporter (W : Type) where
  suites : List (String × suite W)
  num_tests : Nat := 0
  num_failed : Nat := 0
  num_passed : Nat := 0
  num_disabled : Nat := 0
  num_errors : Nat := 0

/-- The member `is_failed()`. -/
def reporter.is_failed {W : Type} (r : reporter W) : Bool :=
  r.num_failed != 0 || r.num_errors != 0

/-- The member `report_pass(id)`: `report(id, status::passed)`; the omitted
message is the default argument `std::string()`. The private `report` is only
declared in the header, so it is a parameter. -/
def reporter.report_pass {σ ρ : Type} (report : full_id → status → String → σ → ρ)
    (id : full_id) : σ → ρ :=
  report id status.passed ""

/-- The member `report_failure(id, message)`. -/
def reporter.report_failure {σ ρ : Type} (report : full_id → status → String → σ → ρ)
    (id : full_id) (message : String) : σ → ρ :=
  report id status.failed message

/-- The member `report_error(id, message)`. -/
def reporter.report_error {σ ρ : Type} (report : full_id → status → String → σ → ρ)
    (id : full_id) (message : String) : σ → ρ :=
  report id status.errored message

/-- The member `report_disabled_test(id)`. -/
def reporter.report_disabled_test {σ ρ : Type} (report : full_id → status → String → σ → ρ)
    (id : full_id) : σ → ρ :=
  report id status.disabled ""

/-- One recorded call of `report`. -/
structure report_call where
  id : full_id
  result : status
  message : String
  deriving DecidableEq, Repr

/-- A `report` that only records the call it receives. -/
def record_report (id : full_id) (result : status) (message : String)
    (log : List report_call) : List report_call :=
  log ++ [{ id := id, result := result, message := message }]

/-! ## Registration -/

/-- Modelled from the spec: `suite::make_indexed_id` is only declared in `suite.hpp`.
Its documentation there composes the id of the provided id string and an
`[index]` suffix; the sibling `testy::suite::add` streams `id << "[" << i << "]"`. -/
def suite.make_indexed_id (id : String) (index : Nat) : String :=
  id ++ "[" ++ Nat.repr index ++ "]"

/-- The loop `for(size_t i = 0; i != params.size(); ++i)` of the parametrized
`suite::add`, from index `i` on. The simple `add(id, flags, proc)` it calls is only
declared in the header: it is the parameter `add`, acting on any state `σ` and
possibly raising `ε`, which ends the loop. -/
def suite.add_params_loop {σ ε P W : Type}
    (add : String → flags → procedure W → σ → Except ε σ)
    (id : String) (fl : flags) (params : Array P) (proc : param_procedure P W)
    (i : Nat) (hi : i ≤ params.size) (s : σ) : Except ε σ :=
  if h : i = params.size then
    Except.ok s
  else
    have hlt : i < params.size := Nat.lt_of_le_of_ne hi h
    match add (suite.make_indexed_id id i) fl (param_closure proc (params[i])) s with
    | Except.ok s1 => suite.add_params_loop add id fl params proc (i + 1) hlt s1
    | Except.error e => Except.error e
termination_by params.size - i

/-- The parametrized `suite::add(id, flags, params, proc)`. -/
def suite.add_params {σ ε P W : Type}
    (add : String → flags → procedure W → σ → Except ε σ)
    (id : String) (fl : flags) (params : Array P) (proc : param_procedure P W)
    (s : σ) : Except ε σ :=
  suite.add_params_loop add id fl params proc 0 (Nat.zero_le _) s

/-- The parametrized `suite::add(id, params, proc)` without flags: it passes `false`. -/
def suite.add_params_noflags {σ ε P W : Type}
    (add : String → flags → procedure W → σ → Except ε σ)
    (id : String) (params : Array P) (proc : param_procedure P W) (s : σ) : Except ε σ :=
  suite.add_params add id (flags.of_bool false) params proc s

/-- The parametrized `suite::add_disabled(id, flags, params, proc)`:
`flags.set(flag::disabled)` on the by-value argument, then `add`. -/
def suite.add_disabled_params {σ ε P W : Type}
    (add : String → flags → procedure W → σ → Except ε σ)
    (id : String) (fl : flags) (params : Array P) (proc : param_procedure P W)
    (s : σ) : Except ε σ :=
  let fl1 := fl.set flag.disabled
  suite.add_params add id fl1 params proc s

/-- The parametrized `suite::add_disabled(id, params, proc)` without flags. -/
def suite.add_disabled_params_noflags {σ ε P W : Type}
    (add : String → flags → procedure W → σ → Except ε σ)
    (id : String) (params : Array P) (proc : param_procedure P W) (s : σ) : Except ε σ :=
  suite.add_disabled_params add id (flags.of_bool false) params proc s

/-- One call of the simple `add(id, flags, proc)`. -/
structure registration (W : Type) where
  id : String
  flags : flags
  proc : procedure W

/-- A simple `add` that only records the call it receives and never raises. -/
def record_add {W : Type} (id : String) (fl : flags) (proc : procedure W)
    (log : List (registration W)) : Except Empty (List (registration W)) :=
  Except.ok (log ++ [{ id := id, flags := fl, proc := proc }])

/-- The calls the parametrized `add` is claimed to make: one per parameter, in index
order, with the indexed id, the flags as passed and the closure over the parameter. -/
def indexed_registrations {P W : Type} (id : String) (fl : flags) (params : Array P)
    (proc : param_procedure P W) : List (registration W) :=
  params.toList.enum.map fun ip =>
    { id := suite.make_indexed_id id ip.1, flags := fl, proc := param_closure proc ip.2 }

/-- Feeding a list of calls to a simple `add`, stopping at the first one that raises. -/
def register_all {σ ε W : Type} (add : String → flags → procedure W → σ → Except ε σ) :
    List (registration W) → σ → Except ε σ
  | [], s => Except.ok s
  | r :: rs, s =>
    match add r.id r.flags r.proc s with
    | Except.ok s1 => register_all add rs s1
    | Except.error e => Except.error e

/-- Modelled from the spec: the simple `suite::add(id, flags, proc)` is only declared in
the header. Test ids are unique within a suite and registering a duplicate fails at
registration time; otherwise the test case is stored with a fresh `test_info`
(`time_ms`, which has no initializer, is taken as zero). -/
def suite.add {W : Type} (id : String) (fl : flags) (proc : procedure W) (s : suite W) :
    Except String (suite W) :=
  if s.tests.any (fun e => e.1 == id) then
    Except.error ("test with id = " ++ id ++ " already exists in the test suite")
  else
    Except.ok { s with tests := s.tests ++ [(id, { proc := proc, flags := fl, time_ms := 0 })] }

/-- The keys of the test map. -/
def suite.ids {W : Type} (s : suite W) : List String := s.tests.map Prod.fst

/-- The value a run of decimal digits denotes, continuing from `acc`. -/
def decimal_value (cs : List Char) (acc : Nat) : Nat :=
  cs.foldl (fun a c => 10 * a + (c.toNat - 48)) acc

end tst

namespace testy

open tst (procedure param_procedure param_closure)

/-- The class `testy::suite`: the map of procedures. -/
structure suite (W : Type) where
  procedures : List (String × procedure W)

/-- The loop of `testy::suite::add(id, params, proc)` from index `i` on; the id is
streamed as `id << "[" << i << "]"`. The simple `add(id, proc)` is only declared: it is
the parameter `add`. -/
def suite.add_params_loop {σ ε P W : Type}
    (add : String → procedure W → σ → Except ε σ)
    (id : String) (params : Array P) (proc : param_procedure P W)
    (i : Nat) (hi : i ≤ params.size) (s : σ) : Except ε σ :=
  if h : i = params.size then
    Except.ok s
  else
    have hlt : i < params.size := Nat.lt_of_le_of_ne hi h
    match add (id ++ "[" ++ Nat.repr i ++ "]") (param_closure proc (params[i])) s with
    | Except.ok s1 => suite.add_params_loop add id params proc (i + 1) hlt s1
    | Except.error e => Except.error e
termination_by params.size - i

/-- The member `testy::suite::add(id, params, proc)`. -/
def suite.add_params {σ ε P W : Type}
    (add : String → procedure W → σ → Except ε σ)
    (id : String) (params : Array P) (proc : param_procedure P W) (s : σ) : Except ε σ :=
  suite.add_params_loop add id params proc 0 (Nat.zero_le _) s

/-- A simple `add(id, proc)` that only records the call it receives. -/
def record_add {W : Type} (id : String) (proc : procedure W)
    (log : List (String × procedure W)) : Except Empty (List (String × procedure W)) :=
  Except.ok (log ++ [(id, proc)])

/-- The calls `testy::suite::add(id, params, proc)` is claimed to make. -/
def indexed_registrations {P W : Type} (id : String) (params : Array P)
    (proc : param_procedure P W) : List (String × procedure W) :=
  params.toList.enum.map fun ip => (id ++ "[" ++ Nat.repr ip.1 ++ "]", param_closure proc ip.2)

/-- Feeding a list of calls to a simple `add`, stopping at the first one that raises. -/
def register_all {σ ε W : Type} (add : String → procedure W → σ → Except ε σ) :
    List (String × procedure W) → σ → Except ε σ
  | [], s => Except.ok s
  | r :: rs, s =>
    match add r.1 r.2 s with
    | Except.ok s1 => register_all add rs s1
    | Except.error e => Except.error e

end testy

namespace testy

/-! ## `testy::main` -/

/-- Modelled from the spec: `tester.hpp` is not among the sources. The members are those
`main` reads: the description, the suites (through `size()`) and the three counters
`num_passed`, `num_disabled` and `num_failed`. `testy` keeps no errored count. -/
structure tester (W : Type) where
  description : String
  suites : List (String × suite W)
  num_passed : Nat
  num_disabled : Nat
  num_failed : Nat

/-- Modelled from the spec: `tester::size()`, the number of registered tests. -/
def tester.size {W : Type} (t : tester W) : Nat :=
  (t.suites.map fun e => e.2.procedures.length).sum

/-- What `main` calls and does not define: the constructor of `tester`, the user's
`testy::init`, `cli.parse` of the `clargs` library (which runs the registered handlers, so
it may set `help` and change the tester), `cli.description()` and `tester::run`. -/
structure main_env (W : Type) where
  construct : tester W
  init : tester W → tester W
  parse : List String → Bool × tester W → Bool × tester W
  cli_description : tester W → String
  run : tester W → tester W

/-- What `main` leaves behind: the returned code, the tester `t`, the text written to
`std::cout` and the number of calls of `t.run()`. -/
structure main_result (W : Type) where
  code : Int
  t : tester W
  out : String
  run_calls : Nat

/-- The flag `help` and the tester as `main` has them after `t.cli.parse(...)`. -/
def main_parsed {W : Type} (env : main_env W) (args : List String) : Bool × tester W :=
  let help := false
  let t := env.construct
  let t := env.init t
  env.parse args (help, t)

/-- The function `testy::main(args)`. -/
def main {W : Type} (env : main_env W) (args : List String) : main_result W :=
  let parsed := main_parsed env args
  let help := parsed.1
  let t := parsed.2
  if help then
    let out := (if t.description.isEmpty then "unit tests\n" else t.description ++ "\n")
      ++ "\n" ++ "options:\n" ++ env.cli_description t
    { code := 0, t := t, out := out, run_calls := 0 }
  else
    let out := "\x1b[1;33;4mrunning\x1b[0m " ++ Nat.repr t.size ++ " test(s)\n"
    let t := env.run t
    let out := out ++ "\x1b[1;32m" ++ Nat.repr t.num_passed ++ "\x1b[0m test(s) passed\n"
    let out :=
      if t.num_disabled != 0 then
        out ++ "\x1b[0;33m" ++ Nat.repr t.num_disabled ++ "\x1b[0m test(s) disabled\n"
      else out
    if t.num_failed != 0 then
      let out := out ++ "\x1b[1;31m" ++ Nat.repr t.num_failed ++ "\x1b[0m test(s) failed\n"
        ++ "\t\x1b[1;31mFAILED\x1b[0m\n"
      { code := 1, t := t, out := out, run_calls := 1 }
    else
      let out := out ++ "\t\x1b[1;32mPASSED\x1b[0m\n"
      { code := 0, t := t, out := out, run_calls := 1 }

/-- A tester as constructed: nothing registered, nothing counted. -/
def example_tester : tester Unit :=
  { description := "", suites := [], num_passed := 0, num_disabled := 0, num_failed := 0 }

/-- A command line parser that sets `help` when `--help` is among the arguments. -/
def example_parse (args : List String) (st : Bool × tester Unit) : Bool × tester Unit :=
  (st.1 || args.contains "--help", st.2)

/-- An environment whose `init` registers the suite `math` with the test `add`, and whose
run counts one passed test. -/
def example_env : main_env Unit :=
  { construct := example_tester
    init := fun t => { t with suites := t.suites ++ [("math", { procedures := [("add", fun w => (w, none))] })] }
    parse := example_parse
    cli_description := fun _ => "--help display help information\n"
    run := fun t => { t with num_passed := t.num_passed + 1 } }

end testy

namespace tst

/-! ## The reporter's `report` and the run, from the specification -/

/-- The type `decltype(tester::suites)`: the suites by name. -/
abbrev catalog (W : Type) : Type := List (String × suite W)

/-- The lookup `find(k)` in a map followed by an update of the found value in place; `none`
when the key is absent or the update rejects the value. -/
def assoc_update {β : Type} (k : String) (f : β → Option β) :
    List (String × β) → Option (List (String × β))
  | [] => none
  | e :: rest =>
    if e.1 = k then
      match f e.2 with
      | some v => some ((e.1, v) :: rest)
      | none => none
    else
      match assoc_update k f rest with
      | some rest1 => some (e :: rest1)
      | none => none

/-- Modelled from the spec: the write of one TestResult, which is missing from the sources
with the body of `reporter::report`. The result must transition from `not_run`; a second
write for the same test is rejected. -/
def test_info.record {W : Type} (result : status) (message : String) (ti : test_info W) :
    Option (test_info W) :=
  if ti.result = status.not_run then
    some { ti with result := result, message := message }
  else
    none

/-- Modelled from the spec: the part of `reporter::report` that acts on the suite of the
test: the result of the test is written. The counters of the suite are left as they are:
the specification does not state who writes them. -/
def suite.record {W : Type} (test : String) (result : status) (message : String)
    (s : suite W) : Option (suite W) :=
  match assoc_update test (test_info.record result message) s.tests with
  | some ts => some { s with tests := ts }
  | none => none

/-- Modelled from the spec: the increment of the matching counter of the reporter, missing
from the sources with the body of `reporter::report`. `not_run` is no terminal status and
has no counter. -/
def reporter.count {W : Type} (result : status) (r : reporter W) : Option (reporter W) :=
  match result with
  | status.not_run => none
  | status.passed => some { r with num_passed := size_t_add r.num_passed 1 }
  | status.failed => some { r with num_failed := size_t_add r.num_failed 1 }
  | status.errored => some { r with num_errors := size_t_add r.num_errors 1 }
  | status.disabled => some { r with num_disabled := size_t_add r.num_disabled 1 }

/-- Modelled from the spec: `reporter::report(id, result, message)` is only declared in
`reporter.hxx`. Under the lock, in one step: the TestResult of `id` is written (it must
transition from `not_run`, a second write for the same id is rejected) and the matching
counter of the reporter is incremented. An unknown id and a rejected write are errors. -/
def reporter.report {W : Type} (id : full_id) (result : status) (message : String)
    (r : reporter W) : Except String (reporter W) :=
  match assoc_update id.suite (suite.record id.test result message) r.suites with
  | some ss =>
    match reporter.count result { r with suites := ss } with
    | some r1 => Except.ok r1
    | none => Except.error "report: no terminal status"
  | none => Except.error "report: unknown id or result already written"

/-- Every test of the catalog with its full id, in catalog order. -/
def catalog.entries {W : Type} (c : catalog W) : List (full_id × test_info W) :=
  c.flatMap fun e => e.2.tests.map fun t => ({ suite := e.1, test := t.1 }, t.2)

/-- The total number of registered tests. -/
def catalog.size {W : Type} (c : catalog W) : Nat :=
  (c.map fun e => e.2.tests.length).sum

/-- Modelled from the spec: the tests with `disabled` set (step 1 of the scheduler). -/
def disabled_set {W : Type} (c : catalog W) : List (full_id × test_info W) :=
  (catalog.entries c).filter fun e => e.2.flags.get flag.disabled

/-- Modelled from the spec: the remaining tests without `no_parallel` (step 2). -/
def parallel_set {W : Type} (c : catalog W) : List (full_id × test_info W) :=
  (catalog.entries c).filter fun e =>
    !e.2.flags.get flag.disabled && !e.2.flags.get flag.no_parallel

/-- Modelled from the spec: the remaining tests with `no_parallel`, in catalog order
(step 2). -/
def serial_set {W : Type} (c : catalog W) : List (full_id × test_info W) :=
  (catalog.entries c).filter fun e =>
    !e.2.flags.get flag.disabled && e.2.flags.get flag.no_parallel

/-- Modelled from the spec: step 1 of the scheduler. Each disabled test is reported as
`disabled` and its procedure is not invoked. -/
def report_disabled_all {W : Type} :
    List (full_id × test_info W) → reporter W → Except String (reporter W)
  | [], r => Except.ok r
  | e :: es, r =>
    match reporter.report_disabled_test reporter.report e.1 r with
    | Except.ok r1 => report_disabled_all es r1
    | Except.error x => Except.error x

/-- Modelled from the spec: step 4 of the scheduler, one invocation. The procedure is
invoked; a normal return is reported as passed, an assertion-kind failure as failed with
its message, anything else as errored with its description. Exactly one event is reported.
Durations are wall-clock time and are left out. -/
def run_test {W : Type} (e : full_id × test_info W) (st : reporter W × W) :
    Except String (reporter W × W) :=
  let res := e.2.proc st.2
  let reported :=
    match res.2 with
    | none => reporter.report_pass reporter.report e.1 st.1
    | some (raised.check_failed m) => reporter.report_failure reporter.report e.1 m st.1
    | some (raised.other m) => reporter.report_error reporter.report e.1 m st.1
  match reported with
  | Except.ok r1 => Except.ok (r1, res.1)
  | Except.error x => Except.error x

/-- Modelled from the spec: the invocations in the order in which their outcomes reach the
reporter. The lock of the reporter serializes the reports, so a concurrent run of the
worker pool and the serial executor is one such order. -/
def run_tests {W : Type} :
    List (full_id × test_info W) → reporter W × W → Except String (reporter W × W)
  | [], st => Except.ok st
  | e :: es, st =>
    match run_test e st with
    | Except.ok st1 => run_tests es st1
    | Except.error x => Except.error x

/-- The decisions of a run that the specification leaves open: in which order the tests of
the worker pool complete (`pool`), and whether the pool or the serial executor reports
next (`turns`). -/
structure schedule where
  pool : List Nat
  turns : List Bool

/-- The order in which the tests handed to the worker pool complete: each test takes the
position in the order of the later ones that the next number names (modulo the number of
positions); without numbers left the tests complete in catalog order. Every test of the
list occurs exactly once. -/
def pool_order {α : Type} : List Nat → List α → List α
  | _, [] => []
  | [], a :: l => a :: pool_order [] l
  | k :: ks, a :: l =>
    (pool_order ks l).insertIdx (k % ((pool_order ks l).length + 1)) a

/-- The order in which the outcomes of the pool (`xs`) and of the serial executor (`ys`)
reach the reporter: `true` lets the pool report next, `false` the serial executor; each
keeps its own order. -/
def interleave {α : Type} : List Bool → List α → List α → List α
  | [], xs, ys => xs ++ ys
  | true :: bs, x :: xs, ys => x :: interleave bs xs ys
  | true :: bs, [], ys => interleave bs [] ys
  | false :: bs, xs, y :: ys => y :: interleave bs xs ys
  | false :: bs, xs, [] => interleave bs xs []

/-- Modelled from the spec: steps 2 and 3 of the scheduler. The non-disabled tests are
partitioned into `parallel_set` and `serial_set`; the pool executes the former, the serial
executor the latter strictly in catalog order, both at the same time. -/
def execution_order {W : Type} (c : catalog W) (sch : schedule) :
    List (full_id × test_info W) :=
  interleave sch.turns (pool_order sch.pool (parallel_set c)) (serial_set c)

/-- Modelled from the spec: `tester::run`, the scheduler over a frozen catalog. The disabled
tests are reported first; then every other test is executed exactly once, in the order
`execution_order` computes from the catalog and the decisions `sch`. The run is complete
when all of them are done; it hands back the reporter. -/
def tester.run {W : Type} (c : catalog W) (sch : schedule) (w : W) :
    Except String (reporter W × W) :=
  match report_disabled_all (disabled_set c) { suites := c } with
  | Except.ok r1 => run_tests (execution_order c sch) (r1, w)
  | Except.error x => Except.error x

/-- The names of the suites with the ids of their tests. -/
def catalog.ids {W : Type} (c : catalog W) : List (String × List String) :=
  c.map fun e => (e.1, e.2.ids)

end tst

namespace tst

end tst

namespace tst

/-! ## Concrete inputs -/

/-- A procedure that returns normally. -/
def example_pass : procedure Unit := fun w => (w, none)

/-- A suite of three tests of which one has passed and one was reported disabled. -/
def example_suite : suite Unit :=
  { tests := [("a", { proc := example_pass, flags := flags.of_bool false, time_ms := 0,
                      result := status.passed }),
              ("b", { proc := example_pass, flags := { disabled := true, no_parallel := false },
                      time_ms := 0, result := status.disabled }),
              ("c", { proc := example_pass, flags := flags.of_bool false, time_ms := 0 })]
    num_disabled := 1
    num_passed := 1 }

/-- Two registrations with distinct ids. -/
def example_registrations : List (registration Unit) :=
  [{ id := "a", flags := flags.of_bool false, proc := example_pass },
   { id := "b", flags := { disabled := false, no_parallel := true }, proc := example_pass }]

/-- The suite the two registrations produce. -/
def example_populated : suite Unit :=
  { tests := [("a", { proc := example_pass, flags := flags.of_bool false, time_ms := 0 }),
              ("b", { proc := example_pass, flags := { disabled := false, no_parallel := true },
                      time_ms := 0 })] }

end tst

/-! # Theorems -/

namespace tst

/-! ## Decimal rendering -/

theorem digitChar_value (k : Nat) (h : k < 10) : (Nat.digitChar k).toNat - 48 = k := by
  interval_cases k <;> rfl

theorem toDigitsCore_value : ∀ (fuel n : Nat) (ds : List Char), n < fuel →
    decimal_value (Nat.toDigitsCore 10 fuel n ds) 0 = decimal_value ds n := by
  intro fuel
  induction fuel with
  | zero => intro n ds h; omega
  | succ fuel ih =>
    intro n ds h
    unfold Nat.toDigitsCore
    simp only
    split
    · next h0 =>
      have hn : n < 10 := by
        by_contra hc
        have : 1 ≤ n / 10 := by
          rw [Nat.le_div_iff_mul_le (by norm_num)]; omega
        omega
      simp only [decimal_value, List.foldl_cons]
      rw [Nat.mod_eq_of_lt hn, digitChar_value n hn]
      simp
    · next h0 =>
      have hlt : n / 10 < fuel := by omega
      rw [ih (n / 10) _ hlt]
      simp only [decimal_value, List.foldl_cons]
      rw [digitChar_value (n % 10) (Nat.mod_lt _ (by norm_num))]
      congr 1
      omega

theorem repr_eq_imp_eq (i j : Nat) (h : Nat.repr i = Nat.repr j) : i = j := by
  have h1 : (Nat.repr i).data = (Nat.repr j).data := by rw [h]
  simp only [Nat.repr, Nat.toDigits, List.asString] at h1
  have hi := toDigitsCore_value (i + 1) i [] (by omega)
  have hj := toDigitsCore_value (j + 1) j [] (by omega)
  rw [h1] at hi
  rw [hi] at hj
  simpa [decimal_value] using hj

theorem indexed_id_eq_iff (id : String) (i j : Nat) :
    id ++ "[" ++ Nat.repr i ++ "]" = id ++ "[" ++ Nat.repr j ++ "]" ↔ i = j := by
  constructor
  · intro h
    have hd := congrArg String.data h
    simp only [String.data_append, List.append_assoc] at hd
    have h1 := List.append_cancel_left hd
    have h2 := List.append_cancel_left h1
    have h3 := List.append_cancel_right h2
    exact repr_eq_imp_eq i j (String.ext_iff.mpr h3)
  · intro h
    rw [h]

/-! ## The registration loops -/

theorem add_params_loop_eq {σ ε P W : Type}
    (add : String → flags → procedure W → σ → Except ε σ)
    (id : String) (fl : flags) (params : Array P) (proc : param_procedure P W)
    (k : Nat) : ∀ (i : Nat) (hi : i ≤ params.size) (s : σ), params.size - i = k →
    suite.add_params_loop add id fl params proc i hi s =
      register_all add
        (((params.toList.drop i).enumFrom i).map fun ip =>
          { id := suite.make_indexed_id id ip.1, flags := fl, proc := param_closure proc ip.2 })
        s := by
  induction k with
  | zero =>
    intro i hi s hk
    have h : i = params.size := by omega
    unfold suite.add_params_loop
    simp [h, register_all]
  | succ k ih =>
    intro i hi s hk
    have hlt : i < params.size := by omega
    unfold suite.add_params_loop
    have hne : ¬ i = params.size := by omega
    simp only [hne, dite_false]
    have hd : params.toList.drop i = params[i] :: params.toList.drop (i + 1) := by
      rw [List.drop_eq_getElem_cons (by simpa using hlt)]
      simp
    rw [hd]
    simp only [List.enumFrom_cons, List.map_cons, register_all]
    cases hadd : add (suite.make_indexed_id id i) fl (param_closure proc params[i]) s with
    | error e => rfl
    | ok s1 => exact ih (i + 1) hlt s1 (by omega)

theorem add_params_eq_register_all {σ ε P W : Type}
    (add : String → flags → procedure W → σ → Except ε σ)
    (id : String) (fl : flags) (params : Array P) (proc : param_procedure P W) (s : σ) :
    suite.add_params add id fl params proc s =
      register_all add (indexed_registrations id fl params proc) s := by
  unfold suite.add_params indexed_registrations
  rw [add_params_loop_eq add id fl params proc params.size 0 (Nat.zero_le _) s (by omega)]
  simp [List.enum]

theorem register_all_record {W : Type} (rs : List (registration W)) :
    ∀ log : List (registration W), register_all record_add rs log = Except.ok (log ++ rs) := by
  induction rs with
  | nil => intro log; simp [register_all]
  | cons r rs ih =>
    intro log
    simp only [register_all, record_add]
    rw [ih]
    simp

theorem indexed_registrations_length {P W : Type} (id : String) (fl : flags) (params : Array P)
    (proc : param_procedure P W) :
    (indexed_registrations id fl params proc).length = params.size := by
  simp [indexed_registrations, List.enum]

theorem indexed_registrations_get {P W : Type} (id : String) (fl : flags) (params : Array P)
    (proc : param_procedure P W) (i : Nat) (h : i < params.size) :
    (indexed_registrations id fl params proc)[i]? =
      some { id := id ++ "[" ++ Nat.repr i ++ "]", flags := fl,
             proc := param_closure proc params[i] } := by
  simp [indexed_registrations, List.enum, List.getElem?_map, List.getElem?_enumFrom,
    suite.make_indexed_id, h]

end tst

namespace testy

open tst (procedure param_procedure param_closure)

theorem testy_add_params_loop_eq {σ ε P W : Type}
    (add : String → procedure W → σ → Except ε σ)
    (id : String) (params : Array P) (proc : param_procedure P W)
    (k : Nat) : ∀ (i : Nat) (hi : i ≤ params.size) (s : σ), params.size - i = k →
    suite.add_params_loop add id params proc i hi s =
      register_all add
        (((params.toList.drop i).enumFrom i).map fun ip =>
          (id ++ "[" ++ Nat.repr ip.1 ++ "]", param_closure proc ip.2))
        s := by
  induction k with
  | zero =>
    intro i hi s hk
    have h : i = params.size := by omega
    unfold suite.add_params_loop
    simp [h, register_all]
  | succ k ih =>
    intro i hi s hk
    have hlt : i < params.size := by omega
    unfold suite.add_params_loop
    have hne : ¬ i = params.size := by omega
    simp only [hne, dite_false]
    have hd : params.toList.drop i = params[i] :: params.toList.drop (i + 1) := by
      rw [List.drop_eq_getElem_cons (by simpa using hlt)]
      simp
    rw [hd]
    simp only [List.enumFrom_cons, List.map_cons, register_all]
    cases hadd : add (id ++ "[" ++ Nat.repr i ++ "]") (param_closure proc params[i]) s with
    | error e => rfl
    | ok s1 => exact ih (i + 1) hlt s1 (by omega)

theorem testy_add_params_eq_register_all {σ ε P W : Type}
    (add : String → procedure W → σ → Except ε σ)
    (id : String) (params : Array P) (proc : param_procedure P W) (s : σ) :
    suite.add_params add id params proc s =
      register_all add (indexed_registrations id params proc) s := by
  unfold suite.add_params indexed_registrations
  rw [testy_add_params_loop_eq add id params proc params.size 0 (Nat.zero_le _) s (by omega)]
  simp [List.enum]

theorem testy_register_all_record {W : Type} (rs : List (String × procedure W)) :
    ∀ log : List (String × procedure W),
      register_all record_add rs log = Except.ok (log ++ rs) := by
  induction rs with
  | nil => intro log; simp [register_all]
  | cons r rs ih =>
    intro log
    simp only [register_all, record_add]
    rw [ih]
    simp

theorem testy_indexed_registrations_length {P W : Type} (id : String) (params : Array P)
    (proc : param_procedure P W) :
    (indexed_registrations id params proc).length = params.size := by
  simp [indexed_registrations, List.enum]

theorem testy_indexed_registrations_get {P W : Type} (id : String) (params : Array P)
    (proc : param_procedure P W) (i : Nat) (h : i < params.size) :
    (indexed_registrations id params proc)[i]? =
      some (id ++ "[" ++ Nat.repr i ++ "]", param_closure proc params[i]) := by
  simp [indexed_registrations, List.enum, List.getElem?_map, List.getElem?_enumFrom, h]

end testy

namespace tst

/-! ## Reporter -/

/-- C1: for every reporter state `is_failed()` is true exactly when `num_failed > 0` or
`num_errors > 0`; it is false when both are zero whatever `num_passed` and `num_disabled`
are, and true when only `num_errors` is non-zero. -/
theorem reporter_is_failed_iff {W : Type} :
    (∀ r : reporter W, r.is_failed = true ↔ (r.num_failed > 0 ∨ r.num_errors > 0)) ∧
    (∀ (su : List (String × suite W)) (nt np nd : Nat),
      reporter.is_failed { suites := su, num_tests := nt, num_failed := 0, num_passed := np,
                           num_disabled := nd, num_errors := 0 } = false) ∧
    (∀ (su : List (String × suite W)) (nt np nd ne : Nat),
      reporter.is_failed { suites := su, num_tests := nt, num_failed := 0, num_passed := np,
                           num_disabled := nd, num_errors := ne + 1 } = true) := by
  refine ⟨?_, ?_, ?_⟩
  · intro r
    simp [reporter.is_failed, Nat.pos_iff_ne_zero]
  · intro su nt np nd
    simp [reporter.is_failed]
  · intro su nt np nd ne
    simp [reporter.is_failed]

/-- C7: each reporter event operation is one call of `report` for the given id with the
matching status and message: `report_pass` passes `passed` and the empty message,
`report_disabled_test` passes `disabled` and the empty message, `report_failure` passes
`failed` and `report_error` passes `errored`, both with the caller's message unchanged.
With a recording `report` each operation appends exactly one call to the log, and in each
recorded call the message is empty unless the status is `failed` or `errored`. -/
theorem reporter_events_forward {σ ρ : Type} (report : full_id → status → String → σ → ρ)
    (id : full_id) (message : String) (s : σ) (log : List report_call) :
    (reporter.report_pass report id s = report id status.passed "" s ∧
     reporter.report_disabled_test report id s = report id status.disabled "" s ∧
     reporter.report_failure report id message s = report id status.failed message s ∧
     reporter.report_error report id message s = report id status.errored message s) ∧
    (reporter.report_pass record_report id log =
       log ++ [{ id := id, result := status.passed, message := "" }] ∧
     reporter.report_disabled_test record_report id log =
       log ++ [{ id := id, result := status.disabled, message := "" }] ∧
     reporter.report_failure record_report id message log =
       log ++ [{ id := id, result := status.failed, message := message }] ∧
     reporter.report_error record_report id message log =
       log ++ [{ id := id, result := status.errored, message := message }]) ∧
    (∀ c : report_call,
      c ∈ reporter.report_pass record_report id [] ++
          reporter.report_disabled_test record_report id [] ++
          reporter.report_failure record_report id message [] ++
          reporter.report_error record_report id message [] →
      c.message = "" ∨ c.result = status.failed ∨ c.result = status.errored) := by
  refine ⟨⟨rfl, rfl, rfl, rfl⟩, ⟨rfl, rfl, rfl, rfl⟩, ?_⟩
  intro c hc
  simp only [reporter.report_pass, reporter.report_disabled_test, reporter.report_failure,
    reporter.report_error, record_report, List.nil_append, List.mem_append,
    List.mem_singleton] at hc
  rcases hc with ((h | h) | h) | h <;> subst h <;> simp

/-! ## `num_skipped` -/

theorem size_t_add_of_lt (a b : Nat) (h : a + b < size_t_mod) : size_t_add a b = a + b := by
  unfold size_t_add
  exact Nat.mod_eq_of_lt h

theorem size_t_sub_of_le (a b : Nat) (hb : b ≤ a) (ha : a < size_t_mod) :
    size_t_sub a b = a - b := by
  unfold size_t_sub
  have hbm : b % size_t_mod = b := Nat.mod_eq_of_lt (by omega)
  rw [hbm]
  have : a + size_t_mod - b = (a - b) + size_t_mod := by omega
  rw [this, Nat.add_mod_right]
  exact Nat.mod_eq_of_lt (by omega)

theorem num_non_skipped_of_le {W : Type} (s : suite W)
    (hle : s.num_disabled + s.num_errors + s.num_failed + s.num_passed ≤ s.tests.length)
    (hsz : s.tests.length < size_t_mod) :
    s.num_non_skipped = s.num_disabled + s.num_errors + s.num_failed + s.num_passed := by
  unfold suite.num_non_skipped
  rw [size_t_add_of_lt s.num_disabled s.num_errors (by omega),
    size_t_add_of_lt _ s.num_failed (by omega), size_t_add_of_lt _ s.num_passed (by omega)]

theorem num_skipped_of_le {W : Type} (s : suite W)
    (hle : s.num_disabled + s.num_errors + s.num_failed + s.num_passed ≤ s.tests.length)
    (hsz : s.tests.length < size_t_mod) :
    s.num_skipped_assert = true ∧
    s.num_skipped =
      s.tests.length - (s.num_disabled + s.num_errors + s.num_failed + s.num_passed) := by
  have hn := num_non_skipped_of_le s hle hsz
  refine ⟨?_, ?_⟩
  · simp [suite.num_skipped_assert, hn, hle]
  · unfold suite.num_skipped
    rw [size_t_sub_of_le _ _ (by omega) hsz, hn]

/-- C9: for every suite state whose four counters sum to at most `tests.size()` (a
`size_t`, so the sum does not overflow), the assertion of `num_skipped()` holds, the
additions and the subtraction do not wrap around, and the result `r` satisfies
`r + num_disabled + num_errors + num_failed + num_passed = size()`; so `r ≤ size()`, and
`r = 0` exactly when the four counters sum to `size()`. -/
theorem num_skipped_exact {W : Type} (s : suite W)
    (hle : s.num_disabled + s.num_errors + s.num_failed + s.num_passed ≤ s.tests.length)
    (hsz : s.tests.length < size_t_mod) :
    s.num_skipped_assert = true ∧
    s.num_non_skipped = s.num_disabled + s.num_errors + s.num_failed + s.num_passed ∧
    s.num_skipped = s.size - s.num_non_skipped ∧
    s.num_skipped + s.num_disabled + s.num_errors + s.num_failed + s.num_passed = s.size ∧
    s.num_skipped ≤ s.size ∧
    (s.num_skipped = 0 ↔
      s.num_disabled + s.num_errors + s.num_failed + s.num_passed = s.size) := by
  have hn := num_non_skipped_of_le s hle hsz
  have hsub : s.num_skipped = s.tests.length - s.num_non_skipped := by
    rw [hn]
    exact (num_skipped_of_le s hle hsz).2
  refine ⟨(num_skipped_of_le s hle hsz).1, hn, ?_, ?_, ?_, ?_⟩
  · simpa [suite.size] using hsub
  · rw [hsub, hn, suite.size]; omega
  · rw [hsub, suite.size]; omega
  · rw [hsub, hn, suite.size]; omega

/-! ## Parametrized registration -/

/-- C4: for every base id, flag set, parameter vector of length `n` and simple `add`, the
parametrized `suite::add` makes the calls of `indexed_registrations` in order (as long as
none raises): there are `n` of them, the `i`-th with the id `id ++ "[" ++ decimal i ++ "]"`,
the flags as passed and a closure that invokes `proc` on `params[i]`; a recording `add`
receives exactly these `n` calls, and nothing is registered for an empty vector. The same
holds for `testy::suite::add`, which has no flags. -/
theorem add_params_registrations {σ ε P W : Type}
    (add : String → flags → procedure W → σ → Except ε σ)
    (add0 : String → procedure W → σ → Except ε σ)
    (id : String) (fl : flags) (params : Array P) (proc : param_procedure P W) (s : σ)
    (log : List (registration W)) (log0 : List (String × procedure W)) :
    (suite.add_params add id fl params proc s =
        register_all add (indexed_registrations id fl params proc) s ∧
     suite.add_params record_add id fl params proc log =
        Except.ok (log ++ indexed_registrations id fl params proc) ∧
     (indexed_registrations id fl params proc).length = params.size ∧
     (∀ (i : Nat) (h : i < params.size),
        (indexed_registrations id fl params proc)[i]? =
          some { id := id ++ "[" ++ Nat.repr i ++ "]", flags := fl,
                 proc := param_closure proc params[i] }) ∧
     suite.add_params add id fl (#[] : Array P) proc s = Except.ok s) ∧
    (testy.suite.add_params add0 id params proc s =
        testy.register_all add0 (testy.indexed_registrations id params proc) s ∧
     testy.suite.add_params testy.record_add id params proc log0 =
        Except.ok (log0 ++ testy.indexed_registrations id params proc) ∧
     (testy.indexed_registrations id params proc).length = params.size ∧
     (∀ (i : Nat) (h : i < params.size),
        (testy.indexed_registrations id params proc)[i]? =
          some (id ++ "[" ++ Nat.repr i ++ "]", param_closure proc params[i])) ∧
     testy.suite.add_params add0 id (#[] : Array P) proc s = Except.ok s) ∧
    (∀ (f : P → procedure W) (p : P) (w : W), param_closure (some f) p w = f p w) := by
  refine ⟨⟨add_params_eq_register_all add id fl params proc s, ?_,
    indexed_registrations_length id fl params proc,
    indexed_registrations_get id fl params proc, ?_⟩,
    ⟨testy.testy_add_params_eq_register_all add0 id params proc s, ?_,
    testy.testy_indexed_registrations_length id params proc,
    testy.testy_indexed_registrations_get id params proc, ?_⟩, ?_⟩
  · rw [add_params_eq_register_all, register_all_record]
  · rw [add_params_eq_register_all]
    simp [indexed_registrations, register_all]
  · rw [testy.testy_add_params_eq_register_all, testy.testy_register_all_record]
  · rw [testy.testy_add_params_eq_register_all]
    simp [testy.indexed_registrations, testy.register_all]
  · intro f p w
    rfl

/-- C6: the parametrized `suite::add_disabled` is the parametrized `suite::add` called with
the flag set extended by `disabled`: every generated test case has `disabled` set and
`no_parallel` as in the flags argument, and the generated ids and procedures are those of
`add`. The overload without a flags argument yields tests whose only set flag is
`disabled`. -/
theorem add_disabled_params_eq_add {σ ε P W : Type}
    (add : String → flags → procedure W → σ → Except ε σ)
    (id : String) (fl : flags) (params : Array P) (proc : param_procedure P W) (s : σ)
    (log : List (registration W)) :
    suite.add_disabled_params add id fl params proc s =
      suite.add_params add id (fl.set flag.disabled) params proc s ∧
    suite.add_disabled_params record_add id fl params proc log =
      Except.ok (log ++ indexed_registrations id (fl.set flag.disabled) params proc) ∧
    (∀ r : registration W, r ∈ indexed_registrations id (fl.set flag.disabled) params proc →
      r.flags.get flag.disabled = true ∧
      r.flags.get flag.no_parallel = fl.get flag.no_parallel) ∧
    (indexed_registrations id (fl.set flag.disabled) params proc).map (fun r => r.id) =
      (indexed_registrations id fl params proc).map (fun r => r.id) ∧
    (indexed_registrations id (fl.set flag.disabled) params proc).map (fun r => r.proc) =
      (indexed_registrations id fl params proc).map (fun r => r.proc) ∧
    suite.add_disabled_params_noflags add id params proc s =
      suite.add_params add id { disabled := true, no_parallel := false } params proc s ∧
    suite.add_disabled_params_noflags record_add id params proc log =
      Except.ok (log ++ indexed_registrations id { disabled := true, no_parallel := false }
        params proc) ∧
    (∀ r : registration W,
      r ∈ indexed_registrations id { disabled := true, no_parallel := false } params proc →
      r.flags.get flag.disabled = true ∧ r.flags.get flag.no_parallel = false) := by
  refine ⟨rfl, ?_, ?_, ?_, ?_, rfl, ?_, ?_⟩
  · unfold suite.add_disabled_params
    rw [add_params_eq_register_all, register_all_record]
  · intro r hr
    simp only [indexed_registrations, List.mem_map] at hr
    obtain ⟨ip, _, rfl⟩ := hr
    simp [flags.set, flags.get]
  · simp [indexed_registrations]
  · simp [indexed_registrations]
  · unfold suite.add_disabled_params_noflags suite.add_disabled_params
    rw [add_params_eq_register_all, register_all_record]
    rfl
  · intro r hr
    simp only [indexed_registrations, List.mem_map] at hr
    obtain ⟨ip, _, rfl⟩ := hr
    simp [flags.get]

end tst

namespace tst

/-! ## Populating a suite with the simple `add` -/

/-- The map entry the simple `add` stores for one registration. -/
theorem suite_add_ok {W : Type} (id : String) (fl : flags) (proc : procedure W) (s : suite W)
    (h : id ∉ s.ids) :
    suite.add id fl proc s =
      Except.ok { s with tests := s.tests ++ [(id, { proc := proc, flags := fl, time_ms := 0 })] } := by
  unfold suite.add
  have hany : s.tests.any (fun e => e.1 == id) = false := by
    rw [List.any_eq_false]
    intro e he hc
    apply h
    simp only [suite.ids, List.mem_map]
    exact ⟨e, he, by simpa using hc⟩
  simp [hany]

theorem suite_add_ok_inv {W : Type} (id : String) (fl : flags) (proc : procedure W)
    (s s1 : suite W) (h : suite.add id fl proc s = Except.ok s1) :
    id ∉ s.ids ∧
    s1 = { s with tests := s.tests ++ [(id, { proc := proc, flags := fl, time_ms := 0 })] } := by
  unfold suite.add at h
  split at h
  · cases h
  · next hany =>
    refine ⟨?_, ?_⟩
    · intro hmem
      apply hany
      simp only [suite.ids, List.mem_map] at hmem
      obtain ⟨e, he, hid⟩ := hmem
      rw [List.any_eq_true]
      exact ⟨e, he, by simpa using hid⟩
    · injection h with h
      exact h.symm

theorem register_all_add_inv {W : Type} (rs : List (registration W)) :
    ∀ (s s1 : suite W), register_all suite.add rs s = Except.ok s1 →
      s1 = { s with tests := s.tests ++ rs.map fun r =>
              (r.id, { proc := r.proc, flags := r.flags, time_ms := 0 }) } := by
  induction rs with
  | nil =>
    intro s s1 h
    simp only [register_all] at h
    injection h with h
    simp [← h]
  | cons r rs ih =>
    intro s s1 h
    simp only [register_all] at h
    cases hadd : suite.add r.id r.flags r.proc s with
    | error e => rw [hadd] at h; cases h
    | ok s2 =>
      rw [hadd] at h
      have h2 := (suite_add_ok_inv _ _ _ _ _ hadd).2
      have h3 := ih s2 s1 h
      rw [h3, h2]
      simp

theorem register_all_add_ok {W : Type} (rs : List (registration W)) :
    ∀ (s : suite W), (rs.map fun r => r.id).Nodup → (∀ r ∈ rs, r.id ∉ s.ids) →
      register_all suite.add rs s =
        Except.ok { s with tests := s.tests ++ rs.map fun r =>
              (r.id, { proc := r.proc, flags := r.flags, time_ms := 0 }) } := by
  induction rs with
  | nil =>
    intro s _ _
    simp [register_all]
  | cons r rs ih =>
    intro s hnd hnot
    simp only [List.map_cons, List.nodup_cons] at hnd
    simp only [register_all]
    rw [suite_add_ok r.id r.flags r.proc s (hnot r (List.mem_cons_self _ _))]
    simp only
    rw [ih _ hnd.2]
    · simp
    · intro r1 hr1
      simp only [suite.ids, List.map_append, List.map_cons, List.map_nil, List.mem_append,
        List.mem_singleton, not_or]
      refine ⟨hnot r1 (List.mem_cons_of_mem _ hr1), ?_⟩
      intro heq
      apply hnd.1
      rw [← heq]
      exact List.mem_map_of_mem (fun r => r.id) hr1

/-- C8: every newly constructed `test_info` has result `not_run` and an empty message, and
a newly constructed suite has its four counters at zero; so for a suite that has only been
populated (its map filled, whatever the tests, its counters as constructed) the assertion
of `num_skipped()` holds and `num_skipped()` equals `size()`. Populating through the simple
`add` gives such a suite, with every test `not_run` and every message empty. -/
theorem fresh_suite_all_skipped {W : Type} (ts : List (String × test_info W))
    (hsz : ts.length < size_t_mod) :
    (∀ (proc : procedure W) (fl : flags) (t : Nat),
      ({ proc := proc, flags := fl, time_ms := t } : test_info W).result = status.not_run ∧
      ({ proc := proc, flags := fl, time_ms := t } : test_info W).message = "") ∧
    ((suite.new : suite W).num_passed = 0 ∧ (suite.new : suite W).num_failed = 0 ∧
      (suite.new : suite W).num_errors = 0 ∧ (suite.new : suite W).num_disabled = 0 ∧
      (suite.new : suite W).num_skipped = (suite.new : suite W).size) ∧
    ((suite.populated ts).num_passed = 0 ∧
      (suite.populated ts).num_failed = 0 ∧
      (suite.populated ts).num_errors = 0 ∧
      (suite.populated ts).num_disabled = 0) ∧
    (suite.populated ts).num_skipped_assert = true ∧
    (suite.populated ts).num_skipped =
      (suite.populated ts).size ∧
    (∀ (rs : List (registration W)) (s : suite W),
      register_all suite.add rs suite.new = Except.ok s →
      s = suite.populated (rs.map fun r =>
              (r.id, { proc := r.proc, flags := r.flags, time_ms := 0 })) ∧
      ∀ e ∈ s.tests, e.2.result = status.not_run ∧ e.2.message = "") := by
  have hx := num_skipped_of_le (suite.populated ts)
    (by show 0 + 0 + 0 + 0 ≤ ts.length; omega) hsz
  refine ⟨fun _ _ _ => ⟨rfl, rfl⟩, ⟨rfl, rfl, rfl, rfl, ?_⟩, ⟨rfl, rfl, rfl, rfl⟩, hx.1, ?_, ?_⟩
  · simp [suite.new, suite.num_skipped, suite.size, suite.num_non_skipped, size_t_add,
      size_t_sub, size_t_mod]
  · rw [hx.2]
    show ts.length - (0 + 0 + 0 + 0) = ts.length
    omega
  · intro rs s h
    have hs := register_all_add_inv rs suite.new s h
    have hs1 : s = suite.populated (rs.map fun r =>
              (r.id, { proc := r.proc, flags := r.flags, time_ms := 0 })) := by
      rw [hs]
      simp [suite.new, suite.populated]
    refine ⟨hs1, ?_⟩
    intro e he
    rw [hs1] at he
    simp only [suite.populated, List.mem_map] at he
    obtain ⟨r, _, rfl⟩ := he
    exact ⟨rfl, rfl⟩

/-- C10: for a fixed base id the indexed id `id ++ "[" ++ decimal i ++ "]"` determines the
index, in `tst` and in `testy` alike; so adding a parameter vector of length `n` to a suite
that has none of the ids `id[0]`, ..., `id[n-1]` succeeds, the `n` new keys are pairwise
distinct and are appended to the keys of the suite, and `size()` grows by exactly `n`. -/
theorem add_params_distinct_ids {P W : Type} (id : String) (fl : flags) (params : Array P)
    (proc : param_procedure P W) (s : suite W)
    (hnew : ∀ i : Nat, i < params.size → suite.make_indexed_id id i ∉ s.ids) :
    (∀ i j : Nat, suite.make_indexed_id id i = suite.make_indexed_id id j ↔ i = j) ∧
    (∀ i j : Nat, id ++ "[" ++ Nat.repr i ++ "]" = id ++ "[" ++ Nat.repr j ++ "]" ↔ i = j) ∧
    ((indexed_registrations id fl params proc).map fun r => r.id).Nodup ∧
    (indexed_registrations id fl params proc).map (fun r => r.id) =
      (List.range params.size).map (suite.make_indexed_id id) ∧
    ∃ s1 : suite W, suite.add_params suite.add id fl params proc s = Except.ok s1 ∧
      s1.ids = s.ids ++ (List.range params.size).map (suite.make_indexed_id id) ∧
      s1.ids.length = s.ids.length + params.size ∧
      s1.size = s.size + params.size := by
  have hids : (indexed_registrations id fl params proc).map (fun r => r.id) =
      (List.range params.size).map (suite.make_indexed_id id) := by
    apply List.ext_getElem?
    intro i
    simp only [List.getElem?_map]
    by_cases hi : i < params.size
    · rw [indexed_registrations_get id fl params proc i hi]
      simp [List.getElem?_range, hi, suite.make_indexed_id]
    · have h1 : (indexed_registrations id fl params proc)[i]? = none := by
        rw [List.getElem?_eq_none_iff, indexed_registrations_length]; omega
      have h2 : (List.range params.size)[i]? = none := by
        rw [List.getElem?_eq_none_iff, List.length_range]; omega
      rw [h1, h2]; rfl
  have hnd : ((indexed_registrations id fl params proc).map fun r => r.id).Nodup := by
    rw [hids]
    apply List.Nodup.map _ (List.nodup_range _)
    intro i j hij
    exact (indexed_id_eq_iff id i j).mp hij
  refine ⟨fun i j => indexed_id_eq_iff id i j, fun i j => indexed_id_eq_iff id i j, hnd, hids, ?_⟩
  have hnot : ∀ r ∈ indexed_registrations id fl params proc, r.id ∉ s.ids := by
    intro r hr
    have hm : r.id ∈ (indexed_registrations id fl params proc).map (fun r => r.id) :=
      List.mem_map_of_mem (fun r => r.id) hr
    rw [hids, List.mem_map] at hm
    obtain ⟨i, hi, hid⟩ := hm
    rw [← hid]
    exact hnew i (List.mem_range.mp hi)
  refine ⟨{ s with tests := s.tests ++ (indexed_registrations id fl params proc).map fun r =>
              (r.id, { proc := r.proc, flags := r.flags, time_ms := 0 }) }, ?_, ?_, ?_, ?_⟩
  · rw [add_params_eq_register_all]
    exact register_all_add_ok _ s hnd hnot
  · simp only [suite.ids, List.map_append, List.map_map]
    rw [← hids]
    simp [Function.comp_def]
  · simp [suite.ids, indexed_registrations_length]
  · simp [suite.size, indexed_registrations_length]

end tst

namespace testy

/-! ## `testy::main` -/

/-- C3 (as stated) fails: with `--help`, `main` returns 0 and never calls `run()`, but the
suites of the tester are not those it was constructed with: `init` has registered the
suite `math` before the arguments are parsed. -/
theorem main_help_catalog_populated :
    (main_parsed example_env ["--help"]).1 = true ∧
    (main example_env ["--help"]).code = 0 ∧
    (main example_env ["--help"]).run_calls = 0 ∧
    example_env.construct.suites.length = 0 ∧
    (main example_env ["--help"]).t.suites.length = 1 ∧
    (main example_env ["--help"]).t.suites ≠ example_env.construct.suites := by
  refine ⟨by decide, by decide, by decide, rfl, by decide, ?_⟩
  intro h
  have h1 := congrArg List.length h
  revert h1
  decide

/-- C3 (amended): when the argument list sets the help flag, `main` returns 0 without
calling `run()`, and the tester (its suites and its counters) is exactly as `init` and the
argument parsing left it: the help branch itself changes neither. The suites that `init`
registers before the arguments are parsed are present. -/
theorem main_help_bypasses_run {W : Type} (env : main_env W) (args : List String)
    (hhelp : (main_parsed env args).1 = true) :
    (main env args).code = 0 ∧
    (main env args).run_calls = 0 ∧
    (main env args).t = (main_parsed env args).2 ∧
    (main env args).t = (env.parse args (false, env.init env.construct)).2 ∧
    (main env args).out =
      (if (main_parsed env args).2.description.isEmpty then "unit tests\n"
        else (main_parsed env args).2.description ++ "\n")
      ++ "\n" ++ "options:\n" ++ env.cli_description (main_parsed env args).2 := by
  have hm : (main env args).t = (main_parsed env args).2 := by
    unfold main
    simp only [hhelp, ↓reduceIte]
  refine ⟨?_, ?_, hm, ?_, ?_⟩
  · unfold main
    simp only [hhelp, ↓reduceIte]
  · unfold main
    simp only [hhelp, ↓reduceIte]
  · rw [hm]
    rfl
  · unfold main
    simp only [hhelp, ↓reduceIte]

theorem main_help_bypasses_run_witness :
    (main_parsed example_env ["--help"]).1 = true ∧
    (main example_env ["--help"]).code = 0 ∧
    (main example_env ["--help"]).run_calls = 0 ∧
    (main example_env ["--help"]).t.suites.length = 1 ∧
    (main example_env ["--help"]).t.num_failed = 0 :=
  ⟨by decide, (main_help_bypasses_run example_env ["--help"] (by decide)).1,
    (main_help_bypasses_run example_env ["--help"] (by decide)).2.1, by decide, by decide⟩

end testy

namespace tst

/-! ## The reporter's `report` and the run -/

end tst

namespace tst

end tst

namespace tst

end tst

namespace tst

end tst

namespace tst

/-! ## Concrete instances -/

theorem num_skipped_exact_witness :
    example_suite.num_disabled + example_suite.num_errors + example_suite.num_failed +
      example_suite.num_passed ≤ example_suite.tests.length ∧
    example_suite.tests.length < size_t_mod ∧
    example_suite.num_skipped_assert = true ∧
    example_suite.num_skipped = 1 :=
  ⟨by decide, by decide, (num_skipped_exact example_suite (by decide) (by decide)).1, by decide⟩

theorem fresh_suite_all_skipped_witness :
    example_populated.tests.length < size_t_mod ∧
    register_all suite.add example_registrations suite.new = Except.ok example_populated ∧
    example_populated.size = 2 ∧
    example_populated.num_skipped = example_populated.size :=
  ⟨by decide, rfl, by decide,
    (fresh_suite_all_skipped example_populated.tests (by decide)).2.2.2.2.1⟩

theorem add_params_distinct_ids_witness :
    (∀ i : Nat, i < (#[10, 20, 30] : Array Nat).size →
      suite.make_indexed_id "p" i ∉ example_populated.ids) ∧
    ∃ s1 : suite Unit,
      suite.add_params suite.add "p" (flags.of_bool false) (#[10, 20, 30] : Array Nat)
        (some fun _ => example_pass) example_populated = Except.ok s1 ∧
      s1.ids = ["a", "b", "p[0]", "p[1]", "p[2]"] ∧ s1.size = 5 := by
  have hnew : ∀ i : Nat, i < (#[10, 20, 30] : Array Nat).size →
      suite.make_indexed_id "p" i ∉ example_populated.ids := by
    intro i hi
    have hi3 : i < 3 := hi
    interval_cases i <;> decide
  refine ⟨hnew, ?_⟩
  obtain ⟨s1, h1, h2, _, h4⟩ :=
    (add_params_distinct_ids "p" (flags.of_bool false) (#[10, 20, 30] : Array Nat)
      (some fun _ => example_pass) example_populated hnew).2.2.2.2
  exact ⟨s1, h1, h2, h4⟩

end tst
